import Mathlib

set_option linter.unusedVariables false
set_option maxRecDepth 8000

/-!
# Sonarr MCP server: a shallow embedding in Lean 4

This file embeds the pure data-reshaping core of `sonarr-mcp-server.py`.
Upstream JSON payloads are modelled as Lean structures whose fields are
`Option`-valued, mirroring Python's `dict.get(key)` (absent field = `none`)
and `dict.get(key, default)` (absent field replaced by the default at the
use site).  The network layer is modelled by passing the upstream payload
as an explicit argument and by recording the API calls a tool issues as an
explicit list, so that claims about which upstream requests happen become
statements about that list.

Python behaviours that matter to the claims are embedded explicitly:
* `sorted` on dictionary items raises `TypeError` when it compares `None`
  with a string, so the grouping/sorting step of `get_calendar` is
  embedded in the `Except String` monad, with a comparison that fails on
  incomparable keys exactly as Python's does;
* float `round(x, 2)` is embedded over `ℚ` as round-half-to-even at two
  decimals;
* string slicing `s[:n]` is `String.take`, and Python string `<` is
  lexicographic comparison of the character sequences.
-/

/-- An upstream HTTP call, as issued by `make_api_request`. -/
inductive ApiCall where
  | get (url : String)
  | post (url : String)
  | put (url : String)
  | delete (url : String)
  deriving DecidableEq, Repr

/-- The value a tool returns: either a success payload (the Python
`{"status": "success", "data": ...}` shape) or an error object (the
Python `{"error": msg}` shape). -/
inductive ToolResult (α : Type) where
  | success (data : α)
  | error (msg : String)
  deriving DecidableEq, Repr

/-- What `make_api_request` hands back to its caller: a parsed JSON
document (modelled abstractly as the call that produced it), the literal
`{"status": "deleted"}` object of the DELETE branch, or — when the method
matches no branch — Python's implicit `None`. -/
inductive ApiResponse where
  | json (source : ApiCall)
  | deleted
  deriving DecidableEq, Repr

/-- Python `endpoint.lstrip('/')`. -/
def pyLstripSlash (s : String) : String :=
  ⟨s.data.dropWhile (· = '/')⟩

/-- Python `method.upper()`: uppercase every character. -/
def pyUpper (s : String) : String :=
  ⟨s.data.map Char.toUpper⟩

/-- The URL built by `make_api_request`: `f"{API_BASE}/{endpoint.lstrip('/')}"`
(with `API_BASE` kept as the abstract base). -/
def apiUrl (endpoint : String) : String :=
  "api/v3/" ++ pyLstripSlash endpoint

/--
`make_api_request(endpoint, method)`, embedded as the pair of
(value returned to the caller, upstream calls issued).  The body is the
`if/elif` chain on `method.upper()` from the source; a method matching no
branch falls through and returns Python `None` (here `Option.none`)
having issued no call.
-/
def make_api_request (endpoint : String) (method : String) :
    Option ApiResponse × List ApiCall :=
  let url := apiUrl endpoint
  if pyUpper method = "GET" then
    (some (.json (.get url)), [.get url])
  else if pyUpper method = "POST" then
    (some (.json (.post url)), [.post url])
  else if pyUpper method = "PUT" then
    (some (.json (.put url)), [.put url])
  else if pyUpper method = "DELETE" then
    (some .deleted, [.delete url])
  else
    (none, [])

/-! ## Series payloads and `get_series_list` -/

/-- The `statistics` sub-object of a series document.  Only the fields the
server reads are modelled; each is optional as in the JSON. -/
structure SeriesStatistics where
  episodeCount : Option Nat := none
  episodeFileCount : Option Nat := none
  sizeOnDisk : Option Nat := none
  deriving DecidableEq, Repr

/-- A season entry of a series document. -/
structure SeasonDoc where
  seasonNumber : Option Nat := none
  monitored : Option Bool := none
  statistics : Option SeriesStatistics := none
  deriving DecidableEq, Repr

/-- An upstream series document, with the fields the server reads.  Every
field is optional: `dict.get` never raises on absence. -/
structure SeriesDoc where
  id : Option Nat := none
  title : Option String := none
  sortTitle : Option String := none
  status : Option String := none
  overview : Option String := none
  monitored : Option Bool := none
  year : Option Nat := none
  seasons : Option (List SeasonDoc) := none
  statistics : Option SeriesStatistics := none
  qualityProfileId : Option Nat := none
  languageProfileId : Option Nat := none
  seasonFolder : Option Bool := none
  path : Option String := none
  network : Option String := none
  airTime : Option String := none
  runtime : Option Nat := none
  certification : Option String := none
  imdbId : Option String := none
  tvdbId : Option Nat := none
  titleSlug : Option String := none
  genres : Option (List String) := none
  deriving DecidableEq, Repr

/-- Python truthiness of the optional boolean stored under `"monitored"`
in a summary: `None` and `False` are falsy, `True` is truthy. -/
def pyTruthy : Option Bool → Bool
  | some b => b
  | none => false

/-- The per-series summary built inside `get_series_list`. -/
structure SeriesSummary where
  id : Option Nat
  title : Option String
  status : Option String
  monitored : Option Bool
  year : Option Nat
  seasons : Nat
  episodes_total : Nat
  episodes_available : Nat
  episodes_missing : Int
  quality_profile : Option Nat
  path : Option String
  network : Option String
  genres : List String
  deriving DecidableEq, Repr

/-- Reading `series.get("statistics", {}).get(field, 0)`: an absent `statistics`
object behaves as the empty dict, whose `get` yields the default `0`. -/
def statGet (st : Option SeriesStatistics) (f : SeriesStatistics → Option Nat) : Nat :=
  match st with
  | some s => (f s).getD 0
  | none => 0

/-- The summary dictionary built for one series in `get_series_list`. -/
def mkSeriesSummary (s : SeriesDoc) : SeriesSummary where
  id := s.id
  title := s.title
  status := s.status
  monitored := s.monitored
  year := s.year
  seasons := (s.seasons.getD []).length
  episodes_total := statGet s.statistics SeriesStatistics.episodeCount
  episodes_available := statGet s.statistics SeriesStatistics.episodeFileCount
  episodes_missing :=
    (statGet s.statistics SeriesStatistics.episodeCount : Int)
      - (statGet s.statistics SeriesStatistics.episodeFileCount : Int)
  quality_profile := s.qualityProfileId
  path := s.path
  network := s.network
  genres := (s.genres.getD []).take 3

/-- The aggregate object `get_series_list` returns on success. -/
structure SeriesListData where
  total_series : Nat
  monitored_count : Nat
  series : List SeriesSummary
  deriving DecidableEq, Repr

/--
`get_series_list(monitored, include_season_images)` applied to the
upstream collection `series_data` (the parsed response of `GET series`).
The body mirrors the source: filter when the `monitored` argument is not
`None` (`s.get('monitored') == monitored`), map through `mkSeriesSummary`,
then compute the aggregates from the mapped list.  The
`include_season_images` argument is accepted and never read, exactly as
in the source.
-/
def get_series_list (monitored : Option Bool) (include_season_images : Bool)
    (series_data : List SeriesDoc) : SeriesListData :=
  let filtered := match monitored with
    | none => series_data
    | some m => series_data.filter (fun s => s.monitored == some m)
  let series_summary := filtered.map mkSeriesSummary
  { total_series := series_summary.length
    monitored_count := (series_summary.filter (fun s => pyTruthy s.monitored)).length
    series := series_summary }

/-- The single upstream call `get_series_list` issues, independent of its
arguments: `make_api_request("series")`. -/
def get_series_list_calls (monitored : Option Bool) (include_season_images : Bool) :
    List ApiCall :=
  (make_api_request "series" "GET").2

/-! ## `get_series_details` -/

/-- The `basic_info` block of the details document. -/
structure DetailsBasicInfo where
  id : Option Nat
  title : Option String
  sort_title : Option String
  status : Option String
  overview : String
  network : Option String
  air_time : Option String
  runtime : Option Nat
  year : Option Nat
  genres : List String
  certification : Option String
  imdb_id : Option String
  tvdb_id : Option Nat
  deriving DecidableEq, Repr

/-- The `monitoring` block of the details document. -/
structure DetailsMonitoring where
  monitored : Option Bool
  season_folder : Option Bool
  quality_profile_id : Option Nat
  language_profile_id : Option Nat
  deriving DecidableEq, Repr

/-- A per-season summary in the details document. -/
structure SeasonInfo where
  season_number : Option Nat
  monitored : Option Bool
  statistics : SeriesStatistics
  deriving DecidableEq, Repr

/-- The detail document `get_series_details` builds. -/
structure SeriesDetails where
  basic_info : DetailsBasicInfo
  monitoring : DetailsMonitoring
  statistics : SeriesStatistics
  path : Option String
  size_on_disk : Nat
  seasons : List SeasonInfo
  deriving DecidableEq, Repr

/--
The reshaping performed by `get_series_details` on the fetched series
document.  The overview is
`series_data.get("overview", "")[:500] + ("..." if len(...) > 500 else "")`.
-/
def get_series_details (series_data : SeriesDoc) : SeriesDetails where
  basic_info :=
    { id := series_data.id
      title := series_data.title
      sort_title := series_data.sortTitle
      status := series_data.status
      overview :=
        (series_data.overview.getD "").take 500 ++
          (if (series_data.overview.getD "").length > 500 then "..." else "")
      network := series_data.network
      air_time := series_data.airTime
      runtime := series_data.runtime
      year := series_data.year
      genres := series_data.genres.getD []
      certification := series_data.certification
      imdb_id := series_data.imdbId
      tvdb_id := series_data.tvdbId }
  monitoring :=
    { monitored := series_data.monitored
      season_folder := series_data.seasonFolder
      quality_profile_id := series_data.qualityProfileId
      language_profile_id := series_data.languageProfileId }
  statistics := series_data.statistics.getD {}
  path := series_data.path
  size_on_disk := statGet series_data.statistics SeriesStatistics.sizeOnDisk
  seasons :=
    (series_data.seasons.getD []).map fun season =>
      { season_number := season.seasonNumber
        monitored := season.monitored
        statistics := season.statistics.getD {} }

/-! ## `add_series` -/

/-- A configured root folder: the source indexes `root_folders[0]["path"]`
directly, so the field is required. -/
structure RootFolderDoc where
  path : String
  deriving DecidableEq, Repr

/-- A configured quality profile: the source indexes
`quality_profiles[0]["id"]` directly. -/
structure QualityProfileDoc where
  id : Nat
  deriving DecidableEq, Repr

/-- The upstream state `add_series` may consult: the responses the Sonarr
instance would give to each fetch the tool can issue. -/
structure AddSeriesEnv where
  rootFolders : List RootFolderDoc
  qualityProfiles : List QualityProfileDoc
  lookupResults : List SeriesDoc
  created : SeriesDoc
  deriving Repr

/-- The `added_series` block of a successful `add_series` result. -/
structure AddedSeriesInfo where
  id : Option Nat
  title : Option String
  tvdb_id : Option Nat
  path : Option String
  monitored : Option Bool
  quality_profile_id : Option Nat
  seasons : Nat
  deriving DecidableEq, Repr

/-- The success payload of `add_series`. -/
structure AddSeriesData where
  added_series : AddedSeriesInfo
  message : String
  deriving DecidableEq, Repr

/-- Python's rendering of an optional string in an f-string: `None` prints
as the text `None`. -/
def pyShowOptStr : Option String → String
  | some s => s
  | none => "None"

/--
`add_series(tvdb_id, title, root_folder_path, quality_profile_id,
monitored)` against upstream state `env`, returning the tool result and
the list of upstream calls issued, in order.  Mirrors the source:
default the root folder (erroring when none are configured), default the
quality profile, look the series up by TVDB id, then POST the new series.
-/
def add_series (tvdb_id : Nat) (title : String)
    (root_folder_path : Option String) (quality_profile_id : Option Nat)
    (monitored : Bool) (env : AddSeriesEnv) :
    ToolResult AddSeriesData × List ApiCall :=
  let rfCalls := match root_folder_path with
    | some _ => []
    | none => (make_api_request "rootfolder" "GET").2
  match root_folder_path, env.rootFolders with
  | none, [] => (.error "No root folders configured in Sonarr", rfCalls)
  | rfp, rfs =>
    let root_folder_path' : String := match rfp with
      | some p => p
      | none => (rfs.headD ⟨""⟩).path
    let qpCalls := match quality_profile_id with
      | some _ => []
      | none => (make_api_request "qualityprofile" "GET").2
    match quality_profile_id, env.qualityProfiles with
    | none, [] => (.error "No quality profiles configured in Sonarr", rfCalls ++ qpCalls)
    | qpi, qps =>
      let quality_profile_id' : Nat := match qpi with
        | some q => q
        | none => (qps.headD ⟨0⟩).id
      let lookupCalls :=
        (make_api_request ("series/lookup?term=tvdb:" ++ toString tvdb_id) "GET").2
      match env.lookupResults with
      | [] =>
        (.error ("Could not find series with TVDB ID: " ++ toString tvdb_id),
          rfCalls ++ qpCalls ++ lookupCalls)
      | series_data :: _ =>
        let postCalls := (make_api_request "series" "POST").2
        let result := env.created
        (.success
          { added_series :=
              { id := result.id
                title := result.title
                tvdb_id := result.tvdbId
                path := result.path
                monitored := result.monitored
                quality_profile_id := result.qualityProfileId
                seasons := (result.seasons.getD []).length }
            message := "Successfully added \x27" ++ pyShowOptStr result.title
              ++ "\x27 to Sonarr" },
          rfCalls ++ qpCalls ++ lookupCalls ++ postCalls)

/-! ## Queue payloads and `get_queue` -/

/-- The nested `quality.quality` object of a queue or history record. -/
structure QualityInner where
  name : Option String := none
  deriving DecidableEq, Repr

/-- The `quality` object of a queue or history record. -/
structure QualityOuter where
  quality : Option QualityInner := none
  deriving DecidableEq, Repr

/-- The embedded `series` object of queue, calendar and history records. -/
structure SeriesRef where
  title : Option String := none
  deriving DecidableEq, Repr

/-- The embedded `episode` object of queue and history records. -/
structure EpisodeRef where
  title : Option String := none
  seasonNumber : Option Nat := none
  episodeNumber : Option Nat := none
  deriving DecidableEq, Repr

/-- An upstream queue record, with the fields `get_queue` reads. -/
structure QueueRecord where
  id : Option Nat := none
  series : Option SeriesRef := none
  episode : Option EpisodeRef := none
  quality : Option QualityOuter := none
  size : Option Nat := none
  sizeleft : Option Nat := none
  status : Option String := none
  trackedDownloadStatus : Option String := none
  downloadClient : Option String := none
  outputPath : Option String := none
  deriving DecidableEq, Repr

/-- Floor of a rational, computed as floor division of numerator by
denominator (the denominator of a `Rat` is positive). -/
def ratFloor (x : ℚ) : Int :=
  Int.fdiv x.num x.den

/-- Python `round(x)` to an integer: round half to even. -/
def pyRoundHalfEven (x : ℚ) : Int :=
  let f := ratFloor x
  let r := x - (f : ℚ)
  if r < 1/2 then f
  else if 1/2 < r then f + 1
  else if f % 2 = 0 then f else f + 1

/-- Python `round(x, 2)`: round half to even at two decimal places. -/
def pyRound2 (x : ℚ) : ℚ :=
  (pyRoundHalfEven (x * 100) : ℚ) / 100

/-- Python `x in l` for an optional string against a list of strings:
`None` equals no string, so membership is false when the value is absent. -/
def pyInStr (x : Option String) (l : List String) : Bool :=
  match x with
  | some s => l.contains s
  | none => false

/-- The mapped queue item built by `get_queue`, with
`progress = round((1 - sizeleft / max(size, 1)) * 100, 2)` where
`sizeleft` defaults to 0 and `size` (inside the progress formula)
defaults to 1 before being floored at 1. -/
structure QueueInfo where
  id : Option Nat
  series_title : Option String
  episode_title : Option String
  season_number : Option Nat
  episode_number : Option Nat
  quality : Option String
  size : Nat
  sizeleft : Nat
  status : Option String
  tracked_download_status : Option String
  download_client : Option String
  output_path : Option String
  progress : ℚ
  deriving DecidableEq, Repr

/-- The reshaping of one queue record. -/
def mkQueueInfo (item : QueueRecord) : QueueInfo where
  id := item.id
  series_title := (item.series.getD {}).title
  episode_title := (item.episode.getD {}).title
  season_number := (item.episode.getD {}).seasonNumber
  episode_number := (item.episode.getD {}).episodeNumber
  quality := ((item.quality.getD {}).quality.getD {}).name
  size := item.size.getD 0
  sizeleft := item.sizeleft.getD 0
  status := item.status
  tracked_download_status := item.trackedDownloadStatus
  download_client := item.downloadClient
  output_path := item.outputPath
  progress :=
    pyRound2 ((1 - (item.sizeleft.getD 0 : ℚ) / (max (item.size.getD 1) 1 : Nat)) * 100)

/-- The success payload of `get_queue`. -/
structure QueueData where
  total_items : Nat
  active_downloads : Nat
  completed_items : Nat
  queue : List QueueInfo
  deriving DecidableEq, Repr

/-- The processing `get_queue` applies to the fetched queue records
(`queue_data.get("records", [])`). -/
def get_queue_process (records : List QueueRecord) : QueueData :=
  let queue_items := records.map mkQueueInfo
  { total_items := queue_items.length
    active_downloads :=
      (queue_items.filter (fun item => pyInStr item.status ["downloading", "queued"])).length
    completed_items :=
      (queue_items.filter (fun item => item.status == some "completed")).length
    queue := queue_items }


/-! ## Calendar payloads and `get_calendar` -/

/-- An upstream calendar entry, with the fields `get_calendar` reads. -/
structure CalendarEpisodeDoc where
  id : Option Nat := none
  series : Option SeriesRef := none
  seriesId : Option Nat := none
  seasonNumber : Option Nat := none
  episodeNumber : Option Nat := none
  title : Option String := none
  airDate : Option String := none
  airDateUtc : Option String := none
  hasFile : Option Bool := none
  monitored : Option Bool := none
  overview : Option String := none
  deriving DecidableEq, Repr

/-- The mapped episode dictionary built by `get_calendar`. -/
structure EpisodeInfo where
  episode_id : Option Nat
  series_title : Option String
  series_id : Option Nat
  season_number : Option Nat
  episode_number : Option Nat
  title : Option String
  air_date : Option String
  air_date_utc : Option String
  has_file : Option Bool
  monitored : Option Bool
  overview : String
  deriving DecidableEq, Repr

/-- The reshaping of one calendar entry (overview truncated at 200). -/
def mkEpisodeInfo (episode : CalendarEpisodeDoc) : EpisodeInfo where
  episode_id := episode.id
  series_title := (episode.series.getD {}).title
  series_id := episode.seriesId
  season_number := episode.seasonNumber
  episode_number := episode.episodeNumber
  title := episode.title
  air_date := episode.airDate
  air_date_utc := episode.airDateUtc
  has_file := episode.hasFile
  monitored := episode.monitored
  overview :=
    (episode.overview.getD "").take 200 ++
      (if (episode.overview.getD "").length > 200 then "..." else "")

/-- One entry of the `episodes_by_date` mapping: the (possibly absent)
air-date key, and that date's episodes. -/
abbrev DateGroup := Option String × List EpisodeInfo

/-- Insert an episode into the insertion-ordered grouping, exactly as the
Python loop does with a `dict`: append to the existing key's list, or add
a fresh key at the end. -/
def addToGroups (groups : List DateGroup) (k : Option String) (ep : EpisodeInfo) :
    List DateGroup :=
  match groups with
  | [] => [(k, [ep])]
  | g :: rest =>
    if g.1 = k then (g.1, g.2 ++ [ep]) :: rest
    else g :: addToGroups rest k ep

/-- The `episodes_by_date` dictionary before sorting: a left fold of the
grouping loop over the mapped episodes, preserving insertion order. -/
def groupByDate (eps : List EpisodeInfo) : List DateGroup :=
  eps.foldl (fun gs ep => addToGroups gs ep.air_date ep) []

/-- Python string comparison `a < b`: lexicographic on the character
sequences, characters compared by code point. -/
def pyStrLtB : List Char → List Char → Bool
  | [], [] => false
  | [], _ :: _ => true
  | _ :: _, [] => false
  | a :: as, b :: bs =>
    if a.toNat < b.toNat then true
    else if b.toNat < a.toNat then false
    else pyStrLtB as bs

/-- Python `a < b` on strings. -/
def pyStrLt (a b : String) : Bool :=
  pyStrLtB a.data b.data

/-- Python's comparison of two grouping keys, as performed by
`sorted(episodes_by_date.items())`: comparing a string with a string
succeeds; any comparison that reaches a `None` key raises `TypeError`
(when the keys differ, the tuple comparison applies `<` to the keys; a
`None` key makes that comparison raise). -/
def pyKeyLt : Option String → Option String → Except String Bool
  | some a, some b => .ok (pyStrLt a b)
  | _, _ => .error "TypeError: unorderable keys (NoneType and str)"

/-- The comparison `sorted` uses on the items of `episodes_by_date`:
tuples are ordered by their first component, the key. -/
def pyGroupLt (a b : DateGroup) : Except String Bool :=
  pyKeyLt a.1 b.1

/-- One insertion step of a comparison-based sort in the `Except` monad:
the comparison itself can raise, and a raise aborts the sort, as a
`TypeError` aborts Python's `sorted`. -/
def insertE (lt : α → α → Except String Bool) (x : α) :
    List α → Except String (List α)
  | [] => .ok [x]
  | y :: ys => do
    let b ← lt x y
    if b then pure (x :: y :: ys)
    else do
      let r ← insertE lt x ys
      pure (y :: r)

/-- Comparison-based sort in the `Except` monad.  On a list whose
elements are pairwise comparable it returns the sorted list; a list that
forces an incomparable pair to be compared raises, as Python's `sorted`
does.  Lists of length at most one perform no comparison at all. -/
def sortE (lt : α → α → Except String Bool) :
    List α → Except String (List α)
  | [] => .ok []
  | x :: xs => do
    let r ← sortE lt xs
    insertE lt x r

/-- The success payload of `get_calendar`. -/
structure CalendarData where
  date_range : String
  total_episodes : Nat
  episodes_with_files : Nat
  episodes_by_date : List DateGroup
  all_episodes : List EpisodeInfo
  deriving DecidableEq, Repr

/--
The processing `get_calendar` applies to the fetched calendar entries:
map each entry, group by air date in insertion order, then sort the
grouping's items (`dict(sorted(episodes_by_date.items()))`).  The sort is
in `Except` because Python's `sorted` raises `TypeError` when it compares
a `None` air-date key with a string one; such an exception is caught by
the tool's `except` block and surfaced as an error result, never as
success data.
-/
def get_calendar_process (start endDate : String)
    (calendar_data : List CalendarEpisodeDoc) : Except String CalendarData := do
  let episodes := calendar_data.map mkEpisodeInfo
  let grouped := groupByDate episodes
  let sortedGroups ← sortE pyGroupLt grouped
  pure
    { date_range := start ++ " to " ++ endDate
      total_episodes := episodes.length
      episodes_with_files := (episodes.filter (fun ep => pyTruthy ep.has_file)).length
      episodes_by_date := sortedGroups
      all_episodes := episodes }

/-! ### Default date range of `get_calendar`

`datetime.now()` is modelled as a day count (days since the civil epoch
1970-01-01, negative for earlier dates); `timedelta(days=n)` is addition
on that count, and `strftime("%Y-%m-%d")` converts the count to a civil
date.  The year is rendered as four zero-padded digits, which matches
Python for the years 1000–9999 that `datetime` meets in practice. -/

/-- Convert a day count (days since 1970-01-01) to a civil
`(year, month, day)` triple, by the standard civil-from-days algorithm. -/
def civilFromDays (z : Int) : Int × Nat × Nat :=
  let z' := z + 719468
  let era := Int.fdiv z' 146097
  let doe := (z' - era * 146097).toNat
  let yoe := (doe - doe / 1460 + doe / 36524 - doe / 146096) / 365
  let doy := doe - (365 * yoe + yoe / 4 - yoe / 100)
  let mp := (5 * doy + 2) / 153
  let d := doy - (153 * mp + 2) / 5 + 1
  let m := if mp < 10 then mp + 3 else mp - 9
  ((yoe : Int) + era * 400 + (if m ≤ 2 then 1 else 0), m, d)

/-- Render a natural number as two zero-padded decimal digits. -/
def pad2 (n : Nat) : String :=
  ⟨[Char.ofNat (48 + n / 10 % 10), Char.ofNat (48 + n % 10)]⟩

/-- Render a natural number as four zero-padded decimal digits. -/
def pad4 (n : Nat) : String :=
  ⟨[Char.ofNat (48 + n / 1000 % 10), Char.ofNat (48 + n / 100 % 10),
    Char.ofNat (48 + n / 10 % 10), Char.ofNat (48 + n % 10)]⟩

/-- Python `strftime("%Y-%m-%d")` applied to the date `days` days after the
epoch. -/
def strftimeYMD (days : Int) : String :=
  let c := civilFromDays days
  pad4 c.1.toNat ++ "-" ++ pad2 c.2.1 ++ "-" ++ pad2 c.2.2

/-- The date-defaulting logic of `get_calendar`: an absent start becomes
`now - 7 days`, an absent end becomes `now + 30 days`, both formatted
`YYYY-MM-DD`. -/
def get_calendar_resolve (start endDate : Option String) (now : Int) :
    String × String :=
  (match start with
    | some s => s
    | none => strftimeYMD (now - 7),
   match endDate with
    | some e => e
    | none => strftimeYMD (now + 30))

/-- The endpoint string `get_calendar` fetches:
`f"calendar?start={start}&end={end}"` plus the unmonitored flag. -/
def get_calendar_endpoint (start endDate : String) (unmonitored : Bool) : String :=
  "calendar?start=" ++ start ++ "&end=" ++ endDate ++
    (if unmonitored then "&unmonitored=true" else "")

/-- The full `get_calendar` tool: resolve the date range, fetch the
calendar in that range, process, and catch a processing exception into a
result-shaped error object. -/
def get_calendar (start endDate : Option String) (unmonitored : Bool)
    (now : Int) (calendar_data : List CalendarEpisodeDoc) :
    ToolResult CalendarData × List ApiCall :=
  let r := get_calendar_resolve start endDate now
  let calls := (make_api_request (get_calendar_endpoint r.1 r.2 unmonitored) "GET").2
  (match get_calendar_process r.1 r.2 calendar_data with
    | .ok d => .success d
    | .error msg => .error msg,
   calls)

/-! ### ISO date keys: lexicographic string order is chronological order -/

/-- Whether a character is a decimal digit (code point between those of
`0` and `9`). -/
def isDigitChar (c : Char) : Bool :=
  48 ≤ c.toNat && c.toNat ≤ 57

/-- Whether a string has the shape `YYYY-MM-DD`: ten characters, digits
everywhere except dashes at positions 4 and 7. -/
def isYMDFormat (s : String) : Bool :=
  match s.data with
  | [y1, y2, y3, y4, h1, m1, m2, h2, d1, d2] =>
    isDigitChar y1 && isDigitChar y2 && isDigitChar y3 && isDigitChar y4 &&
      h1 = '-' && isDigitChar m1 && isDigitChar m2 && h2 = '-' &&
      isDigitChar d1 && isDigitChar d2
  | _ => false

/-- The number of digit characters in a list. -/
def countDigits (l : List Char) : Nat :=
  (l.filter isDigitChar).length

/-- The numeric value of the digit characters of a list, most significant
first, skipping non-digits.  For an ISO `YYYY-MM-DD` string this is the
number `YYYYMMDD`, whose numeric order is chronological order. -/
def lexVal : List Char → Nat
  | [] => 0
  | c :: cs =>
    if isDigitChar c then (c.toNat - 48) * 10 ^ countDigits cs + lexVal cs
    else lexVal cs

/-- The chronological value of an ISO date string. -/
def dateVal (s : String) : Nat :=
  lexVal s.data

/-! ### Proof infrastructure: the pure restriction of `sortE`, and
alignment of ISO date strings -/

/-- The pure insertion step that `insertE pyGroupLt` computes when every
key it meets is a string (so no comparison raises): keys compared by
Python string `<`. -/
def insertP (x : DateGroup) : List DateGroup → List DateGroup
  | [] => [x]
  | y :: ys =>
    if pyStrLt (x.1.getD "") (y.1.getD "") then x :: y :: ys
    else y :: insertP x ys

/-- The pure insertion sort that `sortE pyGroupLt` computes on a grouping
whose keys are all strings. -/
def sortP : List DateGroup → List DateGroup
  | [] => []
  | x :: xs => insertP x (sortP xs)

/-- Positionwise alignment of two character lists: at every position the
two lists hold either two digit characters or the same character.  Two
`YYYY-MM-DD` strings are aligned (digits against digits, dash against
dash), and on aligned lists lexicographic order coincides with the order
of the numeric values of the digits. -/
inductive CharAligned : List Char → List Char → Prop where
  | nil : CharAligned [] []
  | digits (x y : Char) (xs ys : List Char) :
      isDigitChar x = true → isDigitChar y = true →
      CharAligned xs ys → CharAligned (x :: xs) (y :: ys)
  | same (c : Char) (xs ys : List Char) :
      CharAligned xs ys → CharAligned (c :: xs) (c :: ys)

/-! ### Concrete fixtures used to witness the theorems -/

/-- Five series of which exactly two are monitored. -/
def seriesFixture5 : List SeriesDoc :=
  [{ id := some 1, title := some "A", monitored := some true },
   { id := some 2, title := some "B", monitored := some false },
   { id := some 3, title := some "C", monitored := some true },
   { id := some 4, title := some "D", monitored := some false },
   { id := some 5, title := some "E", monitored := some false }]

/-- A queue record whose `size` and `sizeleft` fields are both 0. -/
def queueRecordZeroSize : QueueRecord :=
  { size := some 0, sizeleft := some 0, status := some "downloading" }

/-- A series document whose overview is exactly 501 characters long. -/
def overview501Doc : SeriesDoc :=
  { overview := some ⟨List.replicate 501 'a'⟩ }

/-- A series document whose overview is exactly 500 characters long. -/
def overview500Doc : SeriesDoc :=
  { overview := some ⟨List.replicate 500 'a'⟩ }

/-- An upstream state with no root folders configured. -/
def emptyRootFolderEnv : AddSeriesEnv :=
  { rootFolders := [], qualityProfiles := [{ id := 1 }],
    lookupResults := [{ title := some "T" }], created := {} }

/-- Two calendar entries, the first with an air date, the second without:
the grouping sort must compare a string key with a `None` key. -/
def calendarMixedFixture : List CalendarEpisodeDoc :=
  [{ id := some 1, airDate := some "2024-01-15" },
   { id := some 2 }]

/-- Calendar entries that all lack an air date. -/
def calendarAllNoneFixture : List CalendarEpisodeDoc :=
  [{ id := some 1 }, { id := some 2 }]

/-- Calendar entries that all carry ISO air dates, deliberately out of
order and with a repeated date. -/
def calendarIsoFixture : List CalendarEpisodeDoc :=
  [{ id := some 1, airDate := some "2024-02-10" },
   { id := some 2, airDate := some "2024-01-15" },
   { id := some 3, airDate := some "2024-02-10", hasFile := some true }]

/-- The order the grouping sort establishes on adjacent entries:
`a` precedes `b` when `b`'s key is not smaller than `a`'s in Python
string order. -/
def keyLe (a b : DateGroup) : Prop :=
  pyStrLt (b.1.getD "") (a.1.getD "") = false

instance (a b : DateGroup) : Decidable (keyLe a b) := by
  unfold keyLe
  infer_instance

/-! ## Helper lemmas -/

/-- The status stored in a mapped queue item is the record's status. -/
theorem mkQueueInfo_status (r : QueueRecord) : (mkQueueInfo r).status = r.status := rfl

/-- Applying `ratFloor` to an integer gives that integer. -/
theorem ratFloor_intCast (n : ℤ) : ratFloor (n : ℚ) = n := by
  simp [ratFloor, Rat.num_intCast, Rat.den_intCast, Int.fdiv_one]

/-- Rounding half-to-even fixes integers. -/
theorem pyRoundHalfEven_intCast (n : ℤ) : pyRoundHalfEven (n : ℚ) = n := by
  simp only [pyRoundHalfEven, ratFloor_intCast, sub_self]
  rw [if_pos (by norm_num)]

/-- Python `round(100.0, 2) = 100.0`. -/
theorem pyRound2_hundred : pyRound2 100 = 100 := by
  have h : (100 : ℚ) * 100 = ((10000 : ℤ) : ℚ) := by norm_num
  rw [pyRound2, h, pyRoundHalfEven_intCast]
  norm_num

/-- Membership in a Python-style list of statuses, rewritten as a
disjunction of equalities on the optional status. -/
theorem pyInStr_dl_queued (o : Option String) :
    pyInStr o ["downloading", "queued"] =
      (o == some "downloading" || o == some "queued") := by
  cases o with
  | none => rfl
  | some s =>
    simp only [pyInStr, List.contains, List.elem]
    cases h1 : s == "downloading" <;> cases h2 : s == "queued" <;> simp [h1, h2]

/-! ## Claim theorems -/

/-- C10: a method whose uppercase form is none of GET, POST, PUT, DELETE
makes `make_api_request` fall through every branch: it issues no upstream
call and returns Python `None` rather than a document or an error. -/
theorem make_api_request_unsupported_method (endpoint method : String)
    (hg : pyUpper method ≠ "GET") (hp : pyUpper method ≠ "POST")
    (hu : pyUpper method ≠ "PUT") (hd : pyUpper method ≠ "DELETE") :
    make_api_request endpoint method = (none, []) := by
  simp [make_api_request, hg, hp, hu, hd]

theorem make_api_request_unsupported_method_witness :
    pyUpper "PATCH" ≠ "GET" ∧ make_api_request "queue" "PATCH" = (none, []) :=
  ⟨by decide,
   make_api_request_unsupported_method "queue" "PATCH"
     (by decide) (by decide) (by decide) (by decide)⟩

/-- C6: `get_series_list` is insensitive to `include_season_images`: two
runs differing only in that flag produce equal outputs and issue the same
upstream call. -/
theorem get_series_list_ignores_season_images (monitored : Option Bool)
    (series_data : List SeriesDoc) :
    get_series_list monitored true series_data
        = get_series_list monitored false series_data ∧
      get_series_list_calls monitored true = get_series_list_calls monitored false :=
  ⟨rfl, rfl⟩

/-- C1 (counterexample): on a collection of 5 series of which exactly 2
are monitored, `get_series_list(monitored=True)` reports
`total_series = 2` — the size of the *filtered* collection — not 5 as the
claim states; the series list has length 2 and `monitored_count = 2`. -/
theorem get_series_list_total_is_filtered_cex :
    (get_series_list (some true) false seriesFixture5).total_series = 2 ∧
      (get_series_list (some true) false seriesFixture5).series.length = 2 ∧
      (get_series_list (some true) false seriesFixture5).monitored_count = 2 ∧
      seriesFixture5.length = 5 ∧
      (get_series_list (some true) false seriesFixture5).total_series ≠ 5 := by
  decide

/-- C1 (amended): with a monitored filter set, `get_series_list` reports
`total_series` as the size of the filtered collection (which equals the
length of the returned series list), not of the full upstream
collection. -/
theorem get_series_list_total_is_filtered (m : Bool) (inc : Bool)
    (series_data : List SeriesDoc) :
    (get_series_list (some m) inc series_data).total_series
        = (series_data.filter (fun s => s.monitored == some m)).length ∧
      (get_series_list (some m) inc series_data).series.length
        = (series_data.filter (fun s => s.monitored == some m)).length := by
  constructor <;> simp [get_series_list]

/-- C2 (counterexample): for a queue record with `size = 0` and
`sizeleft = 0`, the progress computed by `get_queue` is `100`, not `0`:
the divisor `max(size, 1)` is floored to 1 and `(1 - 0/1) * 100 = 100`. -/
theorem get_queue_progress_zero_size_cex :
    (get_queue_process [queueRecordZeroSize]).queue
        = [mkQueueInfo queueRecordZeroSize] ∧
      (mkQueueInfo queueRecordZeroSize).progress = 100 ∧
      (mkQueueInfo queueRecordZeroSize).progress ≠ 0 := by
  have hp : (mkQueueInfo queueRecordZeroSize).progress = 100 := by
    simp only [mkQueueInfo, queueRecordZeroSize, Option.getD_some]
    have h0 : ((1 : ℚ) - (↑(0 : ℕ) / ↑((0 : ℕ) ⊔ 1))) * 100 = 100 := by norm_num
    rw [h0, pyRound2_hundred]
  exact ⟨rfl, hp, by rw [hp]; norm_num⟩

/-- C2 (amended): for every queue record whose `size` and `sizeleft`
fields are both 0, the progress value computed by `get_queue` equals
`100.0` (the divisor being floored at 1). -/
theorem get_queue_progress_zero_size (item : QueueRecord)
    (hs : item.size = some 0) (hl : item.sizeleft = some 0) :
    (mkQueueInfo item).progress = 100 := by
  simp only [mkQueueInfo, hs, hl, Option.getD_some]
  have h0 : ((1 : ℚ) - (↑(0 : ℕ) / ↑((0 : ℕ) ⊔ 1))) * 100 = 100 := by norm_num
  rw [h0, pyRound2_hundred]

theorem get_queue_progress_zero_size_witness :
    queueRecordZeroSize.size = some 0 ∧
      (mkQueueInfo queueRecordZeroSize).progress = 100 :=
  ⟨rfl, get_queue_progress_zero_size queueRecordZeroSize rfl rfl⟩

/-- C9: `get_queue` counts an item toward `active_downloads` exactly when
its status is `"downloading"` or `"queued"`, toward `completed_items`
exactly when its status is `"completed"` (any other status counts toward
neither), and `total_items` is the number of mapped records. -/
theorem get_queue_classification (records : List QueueRecord) :
    (get_queue_process records).total_items = records.length ∧
      (get_queue_process records).active_downloads
        = (records.filter
            (fun r => r.status == some "downloading" || r.status == some "queued")).length ∧
      (get_queue_process records).completed_items
        = (records.filter (fun r => r.status == some "completed")).length := by
  refine ⟨by simp [get_queue_process], ?_, ?_⟩
  · simp only [get_queue_process, List.filter_map, List.length_map]
    congr 1
    apply List.filter_congr
    intro r _
    simp [Function.comp, mkQueueInfo_status, pyInStr_dl_queued]
  · simp only [get_queue_process, List.filter_map, List.length_map]
    rfl

/-- Appending strings concatenates their character data. -/
theorem str_data_append (a b : String) : (a ++ b).data = a.data ++ b.data := by
  cases a
  cases b
  rfl

/-- Appending the empty string is the identity. -/
theorem str_append_empty (a : String) : a ++ "" = a := by
  cases a with
  | mk l =>
    show String.mk (l ++ []) = String.mk l
    rw [List.append_nil]

/-- Characters produced from a final decimal digit are digit characters. -/
theorem digitChar_isDigit (n : Nat) : isDigitChar (Char.ofNat (48 + n % 10)) = true := by
  have h : n % 10 < 10 := Nat.mod_lt _ (by norm_num)
  set r := n % 10 with hr
  interval_cases r <;> decide

/-- A four-digit year, two-digit month and two-digit day joined by dashes
have the `YYYY-MM-DD` shape. -/
theorem isYMD_pads (y m d : Nat) :
    isYMDFormat (pad4 y ++ "-" ++ pad2 m ++ "-" ++ pad2 d) = true := by
  have hdata : (pad4 y ++ "-" ++ pad2 m ++ "-" ++ pad2 d).data
      = [Char.ofNat (48 + y / 1000 % 10), Char.ofNat (48 + y / 100 % 10),
         Char.ofNat (48 + y / 10 % 10), Char.ofNat (48 + y % 10), '-',
         Char.ofNat (48 + m / 10 % 10), Char.ofNat (48 + m % 10), '-',
         Char.ofNat (48 + d / 10 % 10), Char.ofNat (48 + d % 10)] := by
    simp [str_data_append, pad4, pad2]
  simp [isYMDFormat, hdata, digitChar_isDigit]

/-- Every date the formatter produces has the `YYYY-MM-DD` shape. -/
theorem strftimeYMD_isYMD (days : Int) : isYMDFormat (strftimeYMD days) = true :=
  isYMD_pads _ _ _

/-- C4: when `root_folder_path` is absent and the root-folder fetch
returns an empty list, `add_series` returns the error result
"No root folders configured in Sonarr" and the only upstream call issued
is the root-folder fetch: no quality-profile fetch, no lookup, no create
request. -/
theorem add_series_no_root_folders (tvdb_id : Nat) (title : String)
    (quality_profile_id : Option Nat) (monitored : Bool) (env : AddSeriesEnv)
    (h : env.rootFolders = []) :
    add_series tvdb_id title none quality_profile_id monitored env
      = (.error "No root folders configured in Sonarr",
         [ApiCall.get (apiUrl "rootfolder")]) := by
  simp [add_series, h, make_api_request, show pyUpper "GET" = "GET" from by decide]

theorem add_series_no_root_folders_witness :
    emptyRootFolderEnv.rootFolders = [] ∧
      add_series 123 "X" none none true emptyRootFolderEnv
        = (.error "No root folders configured in Sonarr",
           [ApiCall.get (apiUrl "rootfolder")]) :=
  ⟨rfl, add_series_no_root_folders 123 "X" none true emptyRootFolderEnv rfl⟩

/-- C5: `get_series_details` returns the overview unchanged, with no
ellipsis marker, when its length is at most 500, and returns exactly the
first 500 characters followed by the ellipsis marker when its length
exceeds 500. -/
theorem get_series_details_overview_truncation (series_data : SeriesDoc) :
    ((series_data.overview.getD "").length ≤ 500 →
        (get_series_details series_data).basic_info.overview
          = series_data.overview.getD "") ∧
      ((series_data.overview.getD "").length > 500 →
        (get_series_details series_data).basic_info.overview
          = (series_data.overview.getD "").take 500 ++ "...") := by
  constructor
  · intro h
    show (series_data.overview.getD "").take 500 ++
        (if (series_data.overview.getD "").length > 500 then "..." else "")
      = series_data.overview.getD ""
    rw [if_neg (by omega), str_append_empty, String.take_eq]
    have hlen : (series_data.overview.getD "").data.length ≤ 500 := by
      rw [String.length_data]
      exact h
    rw [List.take_of_length_le hlen]
  · intro h
    show (series_data.overview.getD "").take 500 ++
        (if (series_data.overview.getD "").length > 500 then "..." else "")
      = (series_data.overview.getD "").take 500 ++ "..."
    rw [if_pos h]

theorem get_series_details_overview_truncation_witness :
    (overview501Doc.overview.getD "").length > 500 ∧
      (get_series_details overview501Doc).basic_info.overview
        = (overview501Doc.overview.getD "").take 500 ++ "..." ∧
      (overview500Doc.overview.getD "").length ≤ 500 ∧
      (get_series_details overview500Doc).basic_info.overview
        = overview500Doc.overview.getD "" :=
  ⟨by decide, (get_series_details_overview_truncation overview501Doc).2 (by decide),
   by decide, (get_series_details_overview_truncation overview500Doc).1 (by decide)⟩

/-- C8: with both `start` and `end` absent, `get_calendar` resolves the
start to exactly 7 days before the current date and the end to exactly 30
days after, both formatted `YYYY-MM-DD`, and fetches the calendar with
exactly those bounds. -/
theorem get_calendar_default_range (unmonitored : Bool) (now : Int)
    (calendar_data : List CalendarEpisodeDoc) :
    get_calendar_resolve none none now
        = (strftimeYMD (now - 7), strftimeYMD (now + 30)) ∧
      isYMDFormat (strftimeYMD (now - 7)) = true ∧
      isYMDFormat (strftimeYMD (now + 30)) = true ∧
      (get_calendar none none unmonitored now calendar_data).2
        = [ApiCall.get (apiUrl (get_calendar_endpoint (strftimeYMD (now - 7))
            (strftimeYMD (now + 30)) unmonitored))] := by
  refine ⟨rfl, strftimeYMD_isYMD _, strftimeYMD_isYMD _, ?_⟩
  simp [get_calendar, get_calendar_resolve, make_api_request,
    show pyUpper "GET" = "GET" from by decide]

/-! ### The grouping sort on string keys -/

/-- Python string comparison is asymmetric. -/
theorem pyStrLtB_asymm : ∀ as bs : List Char,
    pyStrLtB as bs = true → pyStrLtB bs as = false := by
  intro as
  induction as with
  | nil =>
    intro bs h
    cases bs with
    | nil => simp [pyStrLtB] at h
    | cons b bs => simp [pyStrLtB]
  | cons a as ih =>
    intro bs h
    cases bs with
    | nil => simp [pyStrLtB] at h
    | cons b bs =>
      simp only [pyStrLtB] at h ⊢
      rcases Nat.lt_trichotomy a.toNat b.toNat with h1 | h1 | h1
      · rw [if_neg (by omega), if_pos h1]
      · rw [if_neg (by omega), if_neg (by omega)] at h
        rw [if_neg (by omega), if_neg (by omega)]
        exact ih bs h
      · rw [if_neg (by omega), if_pos h1] at h
        simp at h

/-- Comparison `pyStrLt` is asymmetric. -/
theorem pyStrLt_asymm (a b : String) (h : pyStrLt a b = true) :
    pyStrLt b a = false :=
  pyStrLtB_asymm a.data b.data h

/-- Binding a successful `Except` computation applies the continuation. -/
theorem except_ok_bind {α β : Type} (a : α) (f : α → Except String β) :
    ((Except.ok a : Except String α) >>= f) = f a := rfl

/-- Everything in `insertP x l` is `x` or an element of `l`:
`insertP` permutes the extended list. -/
theorem insertP_perm (x : DateGroup) : ∀ l, (insertP x l).Perm (x :: l) := by
  intro l
  induction l with
  | nil => exact List.Perm.refl _
  | cons y ys ih =>
    simp only [insertP]
    by_cases h : pyStrLt (x.1.getD "") (y.1.getD "")
    · rw [if_pos h]
    · rw [if_neg h]
      exact (ih.cons y).trans (List.Perm.swap x y ys)

/-- Sorting with `sortP` permutes the input. -/
theorem sortP_perm : ∀ l : List DateGroup, (sortP l).Perm l := by
  intro l
  induction l with
  | nil => exact List.Perm.refl _
  | cons x xs ih =>
    exact (insertP_perm x (sortP xs)).trans (ih.cons x)

/-- On a grouping whose keys are all strings, the monadic insertion is
the pure insertion: no comparison raises. -/
theorem insertE_eq_insertP (x : DateGroup) (hx : x.1.isSome = true) :
    ∀ l : List DateGroup, (∀ p ∈ l, p.1.isSome = true) →
      insertE pyGroupLt x l = .ok (insertP x l) := by
  intro l
  induction l with
  | nil => intro _; rfl
  | cons y ys ih =>
    intro hl
    obtain ⟨a, ha⟩ := Option.isSome_iff_exists.mp hx
    obtain ⟨b, hb⟩ := Option.isSome_iff_exists.mp (hl y (by simp))
    have hys : ∀ p ∈ ys, p.1.isSome = true := fun p hp => hl p (by simp [hp])
    cases hab : pyStrLt a b with
    | true =>
      have hkey : pyGroupLt x y = Except.ok true := by
        simp [pyGroupLt, pyKeyLt, ha, hb, hab]
      simp only [insertE, hkey, except_ok_bind, if_true, insertP, ha, hb,
        Option.getD_some, hab]
      rfl
    | false =>
      have hkey : pyGroupLt x y = Except.ok false := by
        simp [pyGroupLt, pyKeyLt, ha, hb, hab]
      simp only [insertE, hkey, except_ok_bind, Bool.false_eq_true, if_false,
        ih hys, insertP, ha, hb, Option.getD_some, hab]
      rfl

/-- On a grouping whose keys are all strings, the monadic sort succeeds
and computes the pure insertion sort. -/
theorem sortE_eq_sortP : ∀ l : List DateGroup,
    (∀ p ∈ l, p.1.isSome = true) → sortE pyGroupLt l = .ok (sortP l) := by
  intro l
  induction l with
  | nil => intro _; rfl
  | cons x xs ih =>
    intro hl
    have hxs : ∀ p ∈ xs, p.1.isSome = true := fun p hp => hl p (by simp [hp])
    have hsorted : ∀ p ∈ sortP xs, p.1.isSome = true := by
      intro p hp
      exact hxs p ((sortP_perm xs).mem_iff.mp hp)
    simp only [sortE, ih hxs, except_ok_bind]
    exact insertE_eq_insertP x (hl x (by simp)) (sortP xs) hsorted

/-- Insertion preserves sortedness of adjacent keys. -/
theorem chain'_insertP (x : DateGroup) :
    ∀ l, List.Chain' keyLe l → List.Chain' keyLe (insertP x l) := by
  intro l
  induction l with
  | nil => intro _; simp [insertP]
  | cons y ys ih =>
    intro hc
    simp only [insertP]
    by_cases h : pyStrLt (x.1.getD "") (y.1.getD "")
    · rw [if_pos h, List.chain'_cons]
      exact ⟨pyStrLt_asymm _ _ h, hc⟩
    · rw [if_neg h]
      have h' : pyStrLt (x.1.getD "") (y.1.getD "") = false :=
        Bool.not_eq_true _ ▸ eq_false_of_ne_true h
      cases ys with
      | nil =>
        simp only [insertP]
        rw [List.chain'_cons]
        exact ⟨h', List.chain'_singleton x⟩
      | cons z zs =>
        have hc' := List.chain'_cons.mp hc
        have hins := ih hc'.2
        simp only [insertP] at hins ⊢
        by_cases h2 : pyStrLt (x.1.getD "") (z.1.getD "")
        · rw [if_pos h2] at hins ⊢
          rw [List.chain'_cons]
          exact ⟨h', hins⟩
        · rw [if_neg h2] at hins ⊢
          rw [List.chain'_cons]
          exact ⟨hc'.1, hins⟩

/-- The pure insertion sort sorts the keys ascending. -/
theorem chain'_sortP : ∀ l : List DateGroup, List.Chain' keyLe (sortP l) := by
  intro l
  induction l with
  | nil => simp [sortP]
  | cons x xs ih => exact chain'_insertP x (sortP xs) ih

/-- Restrict a chain to a relation that only holds between members. -/
theorem chain'_imp_of_mem {α : Type} {P : α → Prop} {R S : α → α → Prop} :
    ∀ l : List α, (∀ x ∈ l, P x) → (∀ a b, P a → P b → R a b → S a b) →
      List.Chain' R l → List.Chain' S l := by
  intro l
  induction l with
  | nil => intro _ _ _; simp
  | cons x xs ih =>
    intro hp himp hc
    cases xs with
    | nil => simp
    | cons y ys =>
      rw [List.chain'_cons] at hc ⊢
      refine ⟨himp x y (hp x (by simp)) (hp y (by simp)) hc.1, ?_⟩
      exact ih (fun z hz => hp z (List.mem_cons_of_mem _ hz)) himp hc.2


/-! ### The insertion-ordered grouping -/

/-- Filtering a singleton keeps it when the predicate holds. -/
theorem filter_singleton_pos (p : EpisodeInfo → Bool) (x : EpisodeInfo)
    (h : p x = true) : List.filter p [x] = [x] := by
  simp [List.filter_cons, h]

/-- Filtering a singleton drops it when the predicate fails. -/
theorem filter_singleton_neg (p : EpisodeInfo → Bool) (x : EpisodeInfo)
    (h : p x = false) : List.filter p [x] = [] := by
  simp [List.filter_cons, h]

/-- Grouping a list extended by one episode is one `addToGroups` step. -/
theorem groupByDate_append (eps : List EpisodeInfo) (e : EpisodeInfo) :
    groupByDate (eps ++ [e]) = addToGroups (groupByDate eps) e.air_date e := by
  simp [groupByDate, List.foldl_append]

/-- Adding under a fresh key appends a new singleton group. -/
theorem addToGroups_not_mem (k : Option String) (e : EpisodeInfo) :
    ∀ G : List DateGroup, k ∉ G.map Prod.fst →
      addToGroups G k e = G ++ [(k, [e])] := by
  intro G
  induction G with
  | nil => intro _; rfl
  | cons g gs ih =>
    intro hk
    rw [List.map_cons] at hk
    have hg : g.1 ≠ k := fun h => hk (by rw [h]; exact List.mem_cons_self _ _)
    have hgs : k ∉ gs.map Prod.fst := fun h => hk (List.mem_cons_of_mem _ h)
    simp only [addToGroups, if_neg hg, List.cons_append, List.cons.injEq,
      true_and]
    exact ih hgs

/-- Adding under an existing key (keys distinct) appends the episode to
that key's group and leaves every other group unchanged. -/
theorem addToGroups_mem (k : Option String) (e : EpisodeInfo) :
    ∀ G : List DateGroup, (G.map Prod.fst).Nodup → k ∈ G.map Prod.fst →
      addToGroups G k e
        = G.map (fun g => if g.1 = k then (g.1, g.2 ++ [e]) else g) := by
  intro G
  induction G with
  | nil => intro _ h; simp at h
  | cons g gs ih =>
    intro hnd hk
    rw [List.map_cons] at hnd hk
    have hnd' := List.nodup_cons.mp hnd
    by_cases hg : g.1 = k
    · simp only [addToGroups, if_pos hg, List.map_cons, if_pos hg]
      have hrest : ∀ g' ∈ gs, ¬(g'.1 = k) := by
        intro g' hg' h
        exact hnd'.1 (by rw [hg, ← h]; exact List.mem_map_of_mem _ hg')
      have hmap : gs.map (fun g' => if g'.1 = k then (g'.1, g'.2 ++ [e]) else g') = gs := by
        rw [List.map_congr_left (fun g' hg' => if_neg (hrest g' hg'))]
        exact List.map_id gs
      rw [hmap]
    · have hk' : k ∈ gs.map Prod.fst := by
        rcases List.mem_cons.mp hk with h | h
        · exact absurd h.symm hg
        · exact h
      simp only [addToGroups, if_neg hg, List.map_cons, if_neg hg,
        List.cons.injEq, true_and]
      exact ih hnd'.2 hk'

/-- The grouping invariant of `get_calendar`: keys are distinct, each
group holds exactly the episodes of its key in fetch order, every episode
is represented under its air date, and every key is some episode's air
date. -/
theorem groupByDate_spec (eps : List EpisodeInfo) :
    ((groupByDate eps).map Prod.fst).Nodup ∧
      (∀ g ∈ groupByDate eps, g.2 = eps.filter (fun ep => ep.air_date == g.1)) ∧
      (∀ ep ∈ eps, ∃ v, (ep.air_date, v) ∈ groupByDate eps) ∧
      (∀ g ∈ groupByDate eps, ∃ ep ∈ eps, ep.air_date = g.1) := by
  induction eps using List.reverseRecOn with
  | nil => simp [groupByDate]
  | append_singleton xs e ih =>
    obtain ⟨hnd, hfil, hcompl, hkeys⟩ := ih
    rw [groupByDate_append]
    by_cases hk : e.air_date ∈ (groupByDate xs).map Prod.fst
    · rw [addToGroups_mem _ _ _ hnd hk]
      refine ⟨?_, ?_, ?_, ?_⟩
      · have hfst : (((groupByDate xs).map
            (fun g => if g.1 = e.air_date then (g.1, g.2 ++ [e]) else g)).map Prod.fst)
            = (groupByDate xs).map Prod.fst := by
          rw [List.map_map]
          refine List.map_congr_left ?_
          intro g _
          by_cases h : g.1 = e.air_date <;> simp [h]
        rw [hfst]
        exact hnd
      · intro g' hg'
        obtain ⟨g, hg, rfl⟩ := List.mem_map.mp hg'
        by_cases h : g.1 = e.air_date
        · rw [if_pos h, List.filter_append, ← hfil g hg,
            filter_singleton_pos _ _ (by simp [h])]
        · rw [if_neg h, List.filter_append, ← hfil g hg,
            filter_singleton_neg _ _ (by simp; intro hc; exact h hc.symm),
            List.append_nil]
      · intro ep hep
        rcases List.mem_append.mp hep with h | h
        · obtain ⟨v, hv⟩ := hcompl ep h
          by_cases hd : ep.air_date = e.air_date
          · refine ⟨v ++ [e], ?_⟩
            have hmem := List.mem_map_of_mem
              (fun g => if g.1 = e.air_date then (g.1, g.2 ++ [e]) else g) hv
            simpa [hd] using hmem
          · refine ⟨v, ?_⟩
            have hmem := List.mem_map_of_mem
              (fun g => if g.1 = e.air_date then (g.1, g.2 ++ [e]) else g) hv
            simpa [hd] using hmem
        · have heq : ep = e := by simpa using h
          obtain ⟨g, hg, hg1⟩ := List.mem_map.mp hk
          refine ⟨g.2 ++ [e], ?_⟩
          have hmem := List.mem_map_of_mem
            (fun g' => if g'.1 = e.air_date then (g'.1, g'.2 ++ [e]) else g') hg
          rw [heq]
          simpa [hg1] using hmem
      · intro g' hg'
        obtain ⟨g, hg, rfl⟩ := List.mem_map.mp hg'
        obtain ⟨ep, hep, hd⟩ := hkeys g hg
        by_cases h : g.1 = e.air_date <;>
          exact ⟨ep, List.mem_append_left _ hep, by simp [h, hd]⟩
    · rw [addToGroups_not_mem _ _ _ hk]
      refine ⟨?_, ?_, ?_, ?_⟩
      · rw [List.map_append, List.nodup_append]
        refine ⟨hnd, by simp, ?_⟩
        intro a ha hb
        have : a = e.air_date := by simpa using hb
        exact hk (this ▸ ha)
      · intro g' hg'
        rcases List.mem_append.mp hg' with hg | hg
        · have hne : (e.air_date == g'.1) = false := by
            simp only [beq_eq_false_iff_ne, ne_eq]
            intro hc
            exact hk (hc ▸ List.mem_map_of_mem Prod.fst hg)
          rw [List.filter_append, ← hfil g' hg,
            filter_singleton_neg _ _ hne, List.append_nil]
        · have heq : g' = (e.air_date, [e]) := by simpa using hg
          rw [heq]
          have h1 : List.filter (fun ep => ep.air_date == e.air_date) xs = [] := by
            rw [List.filter_eq_nil_iff]
            intro ep hep
            obtain ⟨v, hv⟩ := hcompl ep hep
            simp only [beq_iff_eq]
            intro hc
            exact hk (hc ▸ List.mem_map_of_mem Prod.fst hv)
          rw [List.filter_append, h1, filter_singleton_pos _ _ (by simp),
            List.nil_append]
      · intro ep hep
        rcases List.mem_append.mp hep with h | h
        · obtain ⟨v, hv⟩ := hcompl ep h
          exact ⟨v, List.mem_append_left _ hv⟩
        · have heq : ep = e := by simpa using h
          refine ⟨[e], ?_⟩
          rw [heq]
          exact List.mem_append_right _ (by simp)
      · intro g' hg'
        rcases List.mem_append.mp hg' with hg | hg
        · obtain ⟨ep, hep, hd⟩ := hkeys g' hg
          exact ⟨ep, List.mem_append_left _ hep, hd⟩
        · have heq : g' = (e.air_date, [e]) := by simpa using hg
          exact ⟨e, List.mem_append_right _ (by simp), by rw [heq]⟩

/-- When every episode lacks an air date the grouping has at most one
entry (all keys are `none` and keys are distinct). -/
theorem groupByDate_allNone (eps : List EpisodeInfo)
    (h : ∀ ep ∈ eps, ep.air_date = none) :
    groupByDate eps = [] ∨ ∃ g, groupByDate eps = [g] := by
  obtain ⟨hnd, _, _, hkeys⟩ := groupByDate_spec eps
  match hG : groupByDate eps with
  | [] => exact Or.inl rfl
  | [g] => exact Or.inr ⟨g, rfl⟩
  | g1 :: g2 :: rest =>
    exfalso
    rw [hG] at hnd hkeys
    obtain ⟨e1, he1, hd1⟩ := hkeys g1 (by simp)
    obtain ⟨e2, he2, hd2⟩ := hkeys g2 (by simp)
    have h1 : g1.1 = none := by rw [← hd1]; exact h e1 he1
    have h2 : g2.1 = none := by rw [← hd2]; exact h e2 he2
    rw [List.map_cons, List.map_cons] at hnd
    have := (List.nodup_cons.mp hnd).1
    exact this (by rw [h1, h2]; exact List.mem_cons_self _ _)

/-- Sorting a grouping of at most one entry performs no comparison and
succeeds. -/
theorem sortE_short (l : List DateGroup)
    (h : l = [] ∨ ∃ g, l = [g]) : sortE pyGroupLt l = .ok l := by
  rcases h with rfl | ⟨g, rfl⟩
  · rfl
  · rfl

/-! ### Lexicographic order on ISO dates is chronological order -/

/-- Aligned lists have the same number of digits. -/
theorem countDigits_aligned {xs ys : List Char} (h : CharAligned xs ys) :
    countDigits xs = countDigits ys := by
  induction h with
  | nil => rfl
  | digits x y xs ys hx hy _ ih =>
    simp [countDigits, List.filter_cons, hx, hy] at ih ⊢
    omega
  | same c xs ys _ ih =>
    by_cases hc : isDigitChar c <;>
      simp [countDigits, List.filter_cons, hc] at ih ⊢ <;> omega

/-- The digit value of a list is below the power of ten given by its
digit count. -/
theorem lexVal_lt_pow : ∀ l : List Char, lexVal l < 10 ^ countDigits l := by
  intro l
  induction l with
  | nil => simp [lexVal, countDigits]
  | cons c cs ih =>
    by_cases h : isDigitChar c
    · have hd : c.toNat - 48 ≤ 9 := by
        simp only [isDigitChar, Bool.and_eq_true, decide_eq_true_eq] at h
        omega
      have hmul : (c.toNat - 48) * 10 ^ countDigits cs ≤ 9 * 10 ^ countDigits cs :=
        Nat.mul_le_mul_right _ hd
      have hcnt : countDigits (c :: cs) = countDigits cs + 1 := by
        simp [countDigits, List.filter_cons, h]
      simp only [lexVal, h, if_true, hcnt, pow_succ]
      omega
    · have hcnt : countDigits (c :: cs) = countDigits cs := by
        simp [countDigits, List.filter_cons, h]
      simp only [lexVal, h, if_false, hcnt]
      exact ih

/-- Comparing two digit blocks of the same width: the block order is the
lexicographic order of (leading digit, remainder). -/
theorem digit_block_lt (K p q dx dy : Nat) (hp : p < K) (hq : q < K) :
    (dx * K + p < dy * K + q) ↔ (dx < dy ∨ (dx = dy ∧ p < q)) := by
  constructor
  · intro h
    rcases Nat.lt_trichotomy dx dy with h1 | h1 | h1
    · exact Or.inl h1
    · subst h1
      exact Or.inr ⟨rfl, by omega⟩
    · exfalso
      have hm : (dy + 1) * K ≤ dx * K := Nat.mul_le_mul_right K (by omega)
      rw [Nat.succ_mul] at hm
      omega
  · intro h
    rcases h with h | ⟨he, hpq⟩
    · have hm : (dx + 1) * K ≤ dy * K := Nat.mul_le_mul_right K (by omega)
      rw [Nat.succ_mul] at hm
      omega
    · subst he
      omega

/-- On aligned character lists, Python's lexicographic `<` coincides with
the order of the digit values. -/
theorem aligned_lex_iff {xs ys : List Char} (h : CharAligned xs ys) :
    (pyStrLtB xs ys = true) ↔ lexVal xs < lexVal ys := by
  induction h with
  | nil => simp [pyStrLtB, lexVal]
  | digits x y xs ys hx hy hal ih =>
    have hK := countDigits_aligned hal
    have hvx := lexVal_lt_pow xs
    have hvy := lexVal_lt_pow ys
    have hdx : 48 ≤ x.toNat ∧ x.toNat ≤ 57 := by
      simp only [isDigitChar, Bool.and_eq_true, decide_eq_true_eq] at hx
      exact hx
    have hdy : 48 ≤ y.toNat ∧ y.toNat ≤ 57 := by
      simp only [isDigitChar, Bool.and_eq_true, decide_eq_true_eq] at hy
      exact hy
    have hvy' : lexVal ys < 10 ^ countDigits xs := by rw [hK]; exact hvy
    simp only [pyStrLtB, lexVal, hx, hy, if_true, ← hK]
    rw [digit_block_lt (10 ^ countDigits xs) (lexVal xs) (lexVal ys)
      (x.toNat - 48) (y.toNat - 48) hvx hvy']
    rcases Nat.lt_trichotomy x.toNat y.toNat with h1 | h1 | h1
    · rw [if_pos h1]
      simp only [true_iff]
      exact Or.inl (by omega)
    · rw [if_neg (by omega), if_neg (by omega), ih]
      constructor
      · intro hlt
        exact Or.inr ⟨by omega, hlt⟩
      · rintro (hlt | ⟨_, hlt⟩)
        · omega
        · exact hlt
    · rw [if_neg (by omega), if_pos h1]
      constructor
      · intro hc
        exact absurd hc (by simp)
      · rintro (hlt | ⟨he, _⟩) <;> omega
  | same c xs ys hal ih =>
    simp only [pyStrLtB, if_neg (Nat.lt_irrefl c.toNat)]
    by_cases hc : isDigitChar c
    · simp only [lexVal, hc, if_true, countDigits_aligned hal, ih]
      constructor <;> intro h <;> omega
    · simp only [lexVal, hc, if_false]
      exact ih

/-- Two `YYYY-MM-DD` strings are positionwise aligned. -/
theorem isYMD_aligned (a b : String) (ha : isYMDFormat a = true)
    (hb : isYMDFormat b = true) : CharAligned a.data b.data := by
  cases a with
  | mk la =>
    cases b with
    | mk lb =>
      unfold isYMDFormat at ha hb
      rcases la with _ | ⟨a1, _ | ⟨a2, _ | ⟨a3, _ | ⟨a4, _ | ⟨a5,
        _ | ⟨a6, _ | ⟨a7, _ | ⟨a8, _ | ⟨a9, _ | ⟨a10, _ | ⟨a11, arest⟩⟩⟩⟩⟩⟩⟩⟩⟩⟩⟩ <;>
        simp only [] at ha <;> try exact absurd ha Bool.false_ne_true
      rcases lb with _ | ⟨b1, _ | ⟨b2, _ | ⟨b3, _ | ⟨b4, _ | ⟨b5,
        _ | ⟨b6, _ | ⟨b7, _ | ⟨b8, _ | ⟨b9, _ | ⟨b10, _ | ⟨b11, brest⟩⟩⟩⟩⟩⟩⟩⟩⟩⟩⟩ <;>
        simp only [] at hb <;> try exact absurd hb Bool.false_ne_true
      simp only [Bool.and_eq_true, decide_eq_true_eq] at ha hb
      obtain ⟨⟨⟨⟨⟨⟨⟨⟨⟨ha1, ha2⟩, ha3⟩, ha4⟩, ha5⟩, ha6⟩, ha7⟩, ha8⟩, ha9⟩, ha10⟩ := ha
      obtain ⟨⟨⟨⟨⟨⟨⟨⟨⟨hb1, hb2⟩, hb3⟩, hb4⟩, hb5⟩, hb6⟩, hb7⟩, hb8⟩, hb9⟩, hb10⟩ := hb
      subst ha5 hb5 ha8 hb8
      exact .digits _ _ _ _ ha1 hb1 (.digits _ _ _ _ ha2 hb2 (.digits _ _ _ _ ha3 hb3
        (.digits _ _ _ _ ha4 hb4 (.same _ _ _ (.digits _ _ _ _ ha6 hb6
        (.digits _ _ _ _ ha7 hb7 (.same _ _ _ (.digits _ _ _ _ ha9 hb9
        (.digits _ _ _ _ ha10 hb10 .nil)))))))))

/-- For ISO `YYYY-MM-DD` strings, Python string `<` is chronological
order of the dates. -/
theorem iso_lt_iff (a b : String) (ha : isYMDFormat a = true)
    (hb : isYMDFormat b = true) :
    (pyStrLt a b = true) ↔ dateVal a < dateVal b :=
  aligned_lex_iff (isYMD_aligned a b ha hb)

/-- C7: when every calendar entry carries an ISO `YYYY-MM-DD` air date,
`get_calendar` succeeds; the grouping keys are distinct and in ascending
date order, each group is exactly its date's episodes in fetch order,
every episode appears under its air date, and `total_episodes` is the
number of mapped entries. -/
theorem get_calendar_grouping (start endDate : String)
    (calendar_data : List CalendarEpisodeDoc)
    (h : ∀ e ∈ calendar_data, ∃ s, e.airDate = some s ∧ isYMDFormat s = true) :
    ∃ d, get_calendar_process start endDate calendar_data = .ok d ∧
      d.all_episodes = calendar_data.map mkEpisodeInfo ∧
      d.total_episodes = calendar_data.length ∧
      (∀ g ∈ d.episodes_by_date,
        g.2 = d.all_episodes.filter (fun ep => ep.air_date == g.1)) ∧
      (∀ ep ∈ d.all_episodes, ∃ v, (ep.air_date, v) ∈ d.episodes_by_date) ∧
      List.Chain' (fun a b => dateVal a ≤ dateVal b)
        (d.episodes_by_date.map (fun g => g.1.getD "")) := by
  have heph : ∀ ep ∈ calendar_data.map mkEpisodeInfo,
      ∃ s, ep.air_date = some s ∧ isYMDFormat s = true := by
    intro ep hep
    obtain ⟨e, he, rfl⟩ := List.mem_map.mp hep
    exact h e he
  obtain ⟨hnd, hfil, hcompl, hkeys⟩ := groupByDate_spec (calendar_data.map mkEpisodeInfo)
  have hsome : ∀ g ∈ groupByDate (calendar_data.map mkEpisodeInfo),
      g.1.isSome = true := by
    intro g hg
    obtain ⟨ep, hep, hd⟩ := hkeys g hg
    obtain ⟨s, hs, _⟩ := heph ep hep
    rw [← hd, hs]
    rfl
  have hsort := sortE_eq_sortP (groupByDate (calendar_data.map mkEpisodeInfo)) hsome
  have hiso : ∀ g ∈ sortP (groupByDate (calendar_data.map mkEpisodeInfo)),
      isYMDFormat (g.1.getD "") = true := by
    intro g hg
    have hgG := (sortP_perm _).mem_iff.mp hg
    obtain ⟨ep, hep, hd⟩ := hkeys g hgG
    obtain ⟨s, hs, hiso⟩ := heph ep hep
    rw [← hd, hs]
    simpa using hiso
  refine ⟨{ date_range := start ++ " to " ++ endDate
            total_episodes := (calendar_data.map mkEpisodeInfo).length
            episodes_with_files :=
              ((calendar_data.map mkEpisodeInfo).filter
                (fun ep => pyTruthy ep.has_file)).length
            episodes_by_date := sortP (groupByDate (calendar_data.map mkEpisodeInfo))
            all_episodes := calendar_data.map mkEpisodeInfo },
    ?_, rfl, by simp, ?_, ?_, ?_⟩
  · simp only [get_calendar_process, hsort, except_ok_bind]
    rfl
  · intro g hg
    exact hfil g ((sortP_perm _).mem_iff.mp hg)
  · intro ep hep
    obtain ⟨v, hv⟩ := hcompl ep hep
    exact ⟨v, (sortP_perm _).mem_iff.mpr hv⟩
  · rw [List.chain'_map]
    refine chain'_imp_of_mem _ hiso ?_ (chain'_sortP _)
    intro a b ha hb hr
    by_contra hlt
    push_neg at hlt
    have hc := (iso_lt_iff _ _ hb ha).mpr hlt
    rw [keyLe] at hr
    rw [hr] at hc
    exact Bool.false_ne_true hc

theorem get_calendar_grouping_witness :
    ∃ d, get_calendar_process "2024-01-08" "2024-02-14" calendarIsoFixture = .ok d ∧
      d.all_episodes = calendarIsoFixture.map mkEpisodeInfo ∧
      d.total_episodes = calendarIsoFixture.length ∧
      (∀ g ∈ d.episodes_by_date,
        g.2 = d.all_episodes.filter (fun ep => ep.air_date == g.1)) ∧
      (∀ ep ∈ d.all_episodes, ∃ v, (ep.air_date, v) ∈ d.episodes_by_date) ∧
      List.Chain' (fun a b => dateVal a ≤ dateVal b)
        (d.episodes_by_date.map (fun g => g.1.getD "")) :=
  get_calendar_grouping "2024-01-08" "2024-02-14" calendarIsoFixture
    (by
      intro e he
      simp only [calendarIsoFixture, List.mem_cons, List.not_mem_nil, or_false] at he
      rcases he with rfl | rfl | rfl
      · exact ⟨"2024-02-10", rfl, by decide⟩
      · exact ⟨"2024-01-15", rfl, by decide⟩
      · exact ⟨"2024-02-10", rfl, by decide⟩)

/-- C3 (counterexample): a calendar payload in which one entry has an air
date and another lacks it makes the grouping sort of `get_calendar`
compare a string key with a `None` key: the reshaping raises `TypeError`
(surfaced by the tool as an error result, not success data), refuting the
claim that calendar reshaping never raises for entries missing
`airDate`. -/
theorem get_calendar_mixed_airdate_cex :
    get_calendar_process "2024-01-08" "2024-02-14" calendarMixedFixture
        = .error "TypeError: unorderable keys (NoneType and str)" ∧
      (get_calendar (some "2024-01-08") (some "2024-02-14") false 0
          calendarMixedFixture).1
        = .error "TypeError: unorderable keys (NoneType and str)" := by
  constructor <;> rfl

/-- C3 (amended): each reshaping substitutes neutral defaults for absent
fields and never raises, with one exception forced by the code: the
calendar grouping sort.  A series document missing `statistics` yields
`episodes.missing = 0 - 0 = 0` (and total/available 0); calendar
reshaping never raises when air-date presence is uniform — all entries
missing `airDate` (a single `None` group, no comparison) or all entries
carrying one — but a payload mixing present and absent air dates makes
the sort raise, so the claim's universal "never raises" holds only under
that uniformity proviso. -/
theorem reshaping_tolerates_missing_fields :
    (∀ s : SeriesDoc, s.statistics = none →
        (mkSeriesSummary s).episodes_missing = 0 ∧
          (mkSeriesSummary s).episodes_total = 0 ∧
          (mkSeriesSummary s).episodes_available = 0) ∧
      (∀ start endDate : String, ∀ calendar_data : List CalendarEpisodeDoc,
        (∀ e ∈ calendar_data, e.airDate = none) →
          ∃ d, get_calendar_process start endDate calendar_data = .ok d) ∧
      (∀ start endDate : String, ∀ calendar_data : List CalendarEpisodeDoc,
        (∀ e ∈ calendar_data, e.airDate.isSome = true) →
          ∃ d, get_calendar_process start endDate calendar_data = .ok d) := by
  refine ⟨?_, ?_, ?_⟩
  · intro s hs
    refine ⟨?_, ?_, ?_⟩ <;> simp [mkSeriesSummary, statGet, hs]
  · intro start endDate calendar_data h
    have hnone : ∀ ep ∈ calendar_data.map mkEpisodeInfo, ep.air_date = none := by
      intro ep hep
      obtain ⟨e, he, rfl⟩ := List.mem_map.mp hep
      exact h e he
    have hshort := groupByDate_allNone (calendar_data.map mkEpisodeInfo) hnone
    have hsort := sortE_short (groupByDate (calendar_data.map mkEpisodeInfo)) hshort
    refine ⟨{ date_range := start ++ " to " ++ endDate
              total_episodes := (calendar_data.map mkEpisodeInfo).length
              episodes_with_files :=
                ((calendar_data.map mkEpisodeInfo).filter
                  (fun ep => pyTruthy ep.has_file)).length
              episodes_by_date := groupByDate (calendar_data.map mkEpisodeInfo)
              all_episodes := calendar_data.map mkEpisodeInfo }, ?_⟩
    simp only [get_calendar_process, hsort, except_ok_bind]
    rfl
  · intro start endDate calendar_data h
    obtain ⟨_, _, _, hkeys⟩ := groupByDate_spec (calendar_data.map mkEpisodeInfo)
    have hsome : ∀ g ∈ groupByDate (calendar_data.map mkEpisodeInfo),
        g.1.isSome = true := by
      intro g hg
      obtain ⟨ep, hep, hd⟩ := hkeys g hg
      obtain ⟨e, he, rfl⟩ := List.mem_map.mp hep
      rw [← hd]
      exact h e he
    have hsort := sortE_eq_sortP (groupByDate (calendar_data.map mkEpisodeInfo)) hsome
    refine ⟨{ date_range := start ++ " to " ++ endDate
              total_episodes := (calendar_data.map mkEpisodeInfo).length
              episodes_with_files :=
                ((calendar_data.map mkEpisodeInfo).filter
                  (fun ep => pyTruthy ep.has_file)).length
              episodes_by_date := sortP (groupByDate (calendar_data.map mkEpisodeInfo))
              all_episodes := calendar_data.map mkEpisodeInfo }, ?_⟩
    simp only [get_calendar_process, hsort, except_ok_bind]
    rfl

theorem reshaping_tolerates_missing_fields_witness :
    (mkSeriesSummary { title := some "T" }).episodes_missing = 0 ∧
      (∃ d, get_calendar_process "a" "b" calendarAllNoneFixture = .ok d) ∧
      (∃ d, get_calendar_process "a" "b" calendarIsoFixture = .ok d) :=
  ⟨(reshaping_tolerates_missing_fields.1 { title := some "T" } rfl).1,
   reshaping_tolerates_missing_fields.2.1 "a" "b" calendarAllNoneFixture (by decide),
   reshaping_tolerates_missing_fields.2.2 "a" "b" calendarIsoFixture (by decide)⟩
